import Mathlib

/-!
Verification of the qapi-rs session layer (crates `qapi` and `qapi-qmp`),
a client for QEMU's QMP and QGA JSON-line protocols.

The embedding models the read side of a session as a list of wire lines,
each already classified by how serde would decode it (the JSON text level
is modelled separately for the line codec, see `decodeLineRaw`).  The
write side is modelled as a trace of write/flush operations.  Machinery
from external crates (`qapi-spec`, the generated `qmp.rs`) that is not
part of the two source files is modelled from the spec and marked as such.
-/

set_option autoImplicit false

namespace QapiRs

/-- Modelled from the spec: `qapi_spec::Error`, a structured remote-reported
failure carrying an error class and a human-readable description
(`qapi-spec` is not under the two source files). -/
structure RemoteError where
  errorClass : String
  desc : String
  deriving DecidableEq, Repr

/-- Modelled from the spec: `qapi_spec::Response<C>`, the wire envelope
carrying either a success payload or a structured `Error`
(wire shape: one of the fields `return` / `error`). -/
inductive Response (C : Type) where
  | ok (v : C)
  | err (e : RemoteError)
  deriving DecidableEq, Repr

/-- Modelled from the spec: `Response::result`, converting the envelope into
`Result<C, Error>`. -/
def Response.result {C : Type} : Response C → Except RemoteError C
  | .ok v => .ok v
  | .err e => .error e

/-- Kinds of `std::io::Error` the session layer produces or propagates.
`decodeFail` stands for a serde decode failure converted through
`From<serde_json::Error>`; `streamFail` for a transport-level failure of the
underlying stream; `remote` for a remote `Error` converted through
`From<qapi_spec::Error>`. -/
inductive IoError where
  | unexpectedEof (msg : String)
  | invalidData (msg : String)
  | decodeFail
  | streamFail
  | remote (e : RemoteError)
  deriving DecidableEq, Repr

/-- Outcome of a fallible call: Rust's `io::Result` plus a separate
`panicked` outcome for `expect`/`panic`, which does not return to the
caller at all. -/
inductive IoResult (α : Type) where
  | ok (a : α)
  | err (e : IoError)
  | panicked (msg : String)
  deriving Repr

def IoResult.isOk {α : Type} : IoResult α → Bool
  | .ok _ => true
  | _ => false

def IoResult.isErr {α : Type} : IoResult α → Bool
  | .err _ => true
  | _ => false

/-- One incoming wire line, classified by how serde decodes it.  `G` is the
greeting payload type, `C` the pending command's success-result type, `E`
the event type.  `garbage` is a line that parses as none of the expected
shapes; `ioErrorLine` is a read on which the underlying stream fails. -/
inductive WireLine (G C E : Type) where
  | greeting (g : G)
  | response (r : Response C)
  | event (e : E)
  | garbage
  | ioErrorLine
  deriving DecidableEq, Repr

/-- Modelled from the spec: `VersionInfo` from the generated `qmp.rs`
(not under the two source files); the greeting's version descriptor. -/
structure VersionInfo where
  major : Int
  minor : Int
  micro : Int
  package : String
  deriving DecidableEq, Repr

/-- Modelled from the spec: `qapi_spec::Any`, the generic structured-value
type used for untyped JSON payloads. -/
structure AnyVal where
  raw : String
  deriving DecidableEq, Repr

/-- `QmpCapability` from `qmp/src/lib.rs`: an advertised capability flag,
either the recognized out-of-band flag (wire name "oob") or an unrecognized
arbitrary value (forward compatibility). -/
inductive QmpCapability where
  | outOfBand
  | unknown (a : AnyVal)
  deriving DecidableEq, Repr

/-- `QMP` from `qmp/src/lib.rs`: the greeting payload, a version descriptor
plus the list of advertised capability flags. -/
structure QMP where
  version : VersionInfo
  capabilities : List QmpCapability
  deriving DecidableEq, Repr

/-- `QapiCapabilities` from `qmp/src/lib.rs`: the greeting wire envelope,
an object with the single field `QMP`. -/
structure QapiCapabilities where
  QMP : QapiRs.QMP
  deriving DecidableEq, Repr

/-- Modelled from the spec: `QMPCapability` from the generated `qmp.rs`
(not under the two source files); the enumeration of recognized capability
flags, currently just `oob`. -/
inductive QMPCapability where
  | oob
  deriving DecidableEq, Repr

/-- `QapiCapabilities::supports_oob` from `qmp/src/lib.rs`: whether the
advertised capability list contains the out-of-band flag. -/
def QapiCapabilities.supports_oob (c : QapiCapabilities) : Bool :=
  c.QMP.capabilities.any fun cap =>
    match cap with
    | QmpCapability.outOfBand => true
    | _ => false

/-- `QapiCapabilities::capabilities` from `qmp/src/lib.rs`: the recognized
capability flags in list order, unrecognized entries dropped. -/
def QapiCapabilities.capabilities (c : QapiCapabilities) : List QMPCapability :=
  c.QMP.capabilities.filterMap fun cap =>
    match cap with
    | QmpCapability.outOfBand => some QMPCapability.oob
    | QmpCapability.unknown _ => none

/-- Modelled from the spec: `qapi_spec::Empty`, the empty success payload of
commands such as `qmp_capabilities`. -/
structure Empty where
  deriving DecidableEq, Repr

/-- One operation on the write half of the stream: a chunk of bytes written,
or a flush. -/
inductive WriteOp where
  | data (s : String)
  | flush
  deriving DecidableEq, Repr

/-- The aspects of a Rust `Command` value the session layer uses: its wire
name (`C::NAME`) and its rendered arguments object, absent when empty. -/
structure CommandModel where
  name : String
  arguments : Option String
  deriving DecidableEq, Repr

/-- Modelled from the spec: `qapi_spec::CommandSerializerRef` (not under the
two source files) serializes a command as the envelope
`{"execute": <name>, "arguments": <args-object, omitted if empty>}`. -/
def serializeCommand (c : CommandModel) : String :=
  match c.arguments with
  | none => "\x7b\"execute\":\"" ++ c.name ++ "\"\x7d"
  | some args => "\x7b\"execute\":\"" ++ c.name ++ "\",\"arguments\":" ++ args ++ "\x7d"

/-- `Qapi::write_command` from `qapi/src/lib.rs`: serialize the command
envelope into the stream, write one newline byte, then flush. -/
def writeCommand (c : CommandModel) (w : List WriteOp) : List WriteOp :=
  let afterSer := w ++ [WriteOp.data (serializeCommand c)]
  let afterNl := afterSer ++ [WriteOp.data "\n"]
  afterNl ++ [WriteOp.flush]

/-- All bytes written in a trace, flushes skipped. -/
def writtenData (ops : List WriteOp) : String :=
  ops.foldl (fun acc op =>
    match op with
    | WriteOp.data s => acc ++ s
    | WriteOp.flush => acc) ""

/-- Number of flushes in a write trace. -/
def flushCount (ops : List WriteOp) : Nat :=
  ops.countP fun op =>
    match op with
    | WriteOp.flush => true
    | _ => false

/-- Result of `Qmp::read_response`: the call's outcome, the unconsumed rest
of the input stream, and the session's event queue afterwards. -/
structure RdOut (C E : Type) where
  res : IoResult (Except RemoteError C)
  rest : List (WireLine QapiCapabilities C E)
  queue : List E
  deriving Repr

/-- `Qmp::read_response` from `qapi/src/lib.rs`: loop decoding lines as
`QmpMessage`; EOF raises unexpected-EOF, a greeting raises invalid-data
("unexpected greeting"), a response ends the loop with its `result()`, an
event is pushed onto the event queue and the loop continues.  A line that
decodes as no `QmpMessage` variant (garbage) or a failing read propagates
as an error through the `?` operator.  Note the `QmpMessage` enum as
declared in `qmp/src/lib.rs` lists only `Event` and `Response`, while this
match in `qapi/src/lib.rs` (and the spec's three-way union) also requires
a `Greeting` variant; the three-way union is embedded here. -/
def qmpReadResponse {C E : Type} :
    List (WireLine QapiCapabilities C E) → List E → RdOut C E
  | [], q => ⟨.err (.unexpectedEof "expected command response"), [], q⟩
  | .ioErrorLine :: rest, q => ⟨.err .streamFail, rest, q⟩
  | .garbage :: rest, q => ⟨.err .decodeFail, rest, q⟩
  | .greeting _ :: rest, q => ⟨.err (.invalidData "unexpected greeting"), rest, q⟩
  | .response r :: rest, q => ⟨.ok r.result, rest, q⟩
  | .event e :: rest, q => qmpReadResponse rest (q ++ [e])

/-- Result of `Qmp::read_capabilities`. -/
structure CapsOut (C E : Type) where
  res : IoResult QapiRs.QMP
  rest : List (WireLine QapiCapabilities C E)
  deriving Repr

/-- `Qmp::read_capabilities` from `qapi/src/lib.rs`: decode one line as
`QapiCapabilities` and project its `QMP` field.  On clean EOF
(`decode_line` returns `Ok(None)`) the code calls
`.expect("unexpected eof")`, which panics rather than returning an error.
A response, event, or garbage line fails to decode as `QapiCapabilities`
(no `QMP` field) and yields a decode error. -/
def qmpReadCapabilities {C E : Type} :
    List (WireLine QapiCapabilities C E) → CapsOut C E
  | [] => ⟨.panicked "unexpected eof", []⟩
  | .ioErrorLine :: rest => ⟨.err .streamFail, rest⟩
  | .greeting g :: rest => ⟨.ok g.QMP, rest⟩
  | .garbage :: rest => ⟨.err .decodeFail, rest⟩
  | .response _ :: rest => ⟨.err .decodeFail, rest⟩
  | .event _ :: rest => ⟨.err .decodeFail, rest⟩

/-- `Qmp::events` from `qapi/src/lib.rs`: `event_queue.drain(..)` — returns
the queued events in order and leaves the queue empty.  The first component
is the drained sequence, the second the queue afterwards. -/
def qmpEvents {E : Type} (q : List E) : List E × List E := (q, [])

/-- Result of `Qmp::execute`: write trace, outcome, rest of input, queue. -/
structure ExecOut (C E : Type) where
  ops : List WriteOp
  res : IoResult (Except RemoteError C)
  rest : List (WireLine QapiCapabilities C E)
  queue : List E
  deriving Repr

/-- `Qmp::execute` from `qapi/src/lib.rs`: `write_command` then
`read_response` (the successful-write path; a write-side failure would
return before any read). -/
def qmpExecute {C E : Type} (c : CommandModel) (w : List WriteOp)
    (lines : List (WireLine QapiCapabilities C E)) (q : List E) : ExecOut C E :=
  let rd := qmpReadResponse lines q
  ⟨writeCommand c w, rd.res, rd.rest, rd.queue⟩

/-- The `qmp_capabilities { enable: None }` command sent by the QMP
handshake; its arguments object is empty and omitted on the wire. -/
def qmpCapabilitiesCmd : CommandModel := ⟨"qmp_capabilities", none⟩

/-- Result of `Qmp::handshake`. -/
structure HsOut (E : Type) where
  res : IoResult QapiRs.QMP
  rest : List (WireLine QapiCapabilities Empty E)
  queue : List E
  ops : List WriteOp
  deriving Repr

/-- `Qmp::handshake` from `qapi/src/lib.rs`: `read_capabilities`, then
`execute(qmp_capabilities { enable: None })`; a remote `Error` from the
command is converted into an I/O error (`map_err(From::from)`), and on
success the greeting's capabilities value is returned unchanged. -/
def qmpHandshake {E : Type} (w : List WriteOp)
    (lines : List (WireLine QapiCapabilities Empty E)) (q : List E) : HsOut E :=
  match qmpReadCapabilities lines with
  | ⟨.ok caps, rest⟩ =>
    let ex := qmpExecute (C := Empty) qmpCapabilitiesCmd w rest q
    match ex.res with
    | .ok (.ok _) => ⟨.ok caps, ex.rest, ex.queue, ex.ops⟩
    | .ok (.error e) => ⟨.err (.remote e), ex.rest, ex.queue, ex.ops⟩
    | .err ioe => ⟨.err ioe, ex.rest, ex.queue, ex.ops⟩
    | .panicked m => ⟨.panicked m, ex.rest, ex.queue, ex.ops⟩
  | ⟨.err e, rest⟩ => ⟨.err e, rest, q, w⟩
  | ⟨.panicked m, rest⟩ => ⟨.panicked m, rest, q, w⟩

/-- `Qga::read_response` from `qapi/src/lib.rs`: decode one line as
`Response<C>`; EOF raises unexpected-EOF, a response returns its
`result()`.  QGA has no event demultiplexing: a line that is not
response-shaped (greeting, event, garbage) fails to decode and the error
propagates through `?`. -/
def qgaReadResponse {G C E : Type} :
    List (WireLine G C E) → IoResult (Except RemoteError C) × List (WireLine G C E)
  | [] => (.err (.unexpectedEof "expected command response"), [])
  | .ioErrorLine :: rest => (.err .streamFail, rest)
  | .response r :: rest => (.ok r.result, rest)
  | .greeting _ :: rest => (.err .decodeFail, rest)
  | .event _ :: rest => (.err .decodeFail, rest)
  | .garbage :: rest => (.err .decodeFail, rest)

/-- Result of `Qga::execute`. -/
structure QgaExecOut (G C E : Type) where
  ops : List WriteOp
  res : IoResult (Except RemoteError C)
  rest : List (WireLine G C E)
  deriving Repr

/-- `Qga::execute` from `qapi/src/lib.rs`: `write_command` then
`read_response`. -/
def qgaExecute {G C E : Type} (c : CommandModel) (w : List WriteOp)
    (lines : List (WireLine G C E)) : QgaExecOut G C E :=
  let rd := qgaReadResponse lines
  ⟨writeCommand c w, rd.1, rd.2⟩

/-- The `guest-sync` command carrying the handshake nonce as its `id`
argument.  The source derives the nonce from the session's own address
(noted there as a weak placeholder); it is a parameter here. -/
def guestSyncCmd (nonce : Int) : CommandModel :=
  ⟨"guest-sync", some ("\x7b\"id\":" ++ toString nonce ++ "\x7d")⟩

/-- Result of `Qga::handshake`. -/
structure QgaHsOut (G E : Type) where
  ops : List WriteOp
  res : IoResult Unit
  rest : List (WireLine G Int E)
  deriving Repr

/-- `Qga::handshake` from `qapi/src/lib.rs`: execute `guest-sync` with a
nonce; success only if the echoed value equals the nonce, any other echoed
value raises invalid-data ("guest-sync handshake failed"), and a remote
`Error` is converted into an I/O error. -/
def qgaHandshake {G E : Type} (nonce : Int) (w : List WriteOp)
    (lines : List (WireLine G Int E)) : QgaHsOut G E :=
  let w2 := writeCommand (guestSyncCmd nonce) w
  match qgaReadResponse lines with
  | (.ok (.ok r), rest) =>
    if r = nonce then ⟨w2, .ok (), rest⟩
    else ⟨w2, .err (.invalidData "guest-sync handshake failed"), rest⟩
  | (.ok (.error e), rest) => ⟨w2, .err (.remote e), rest⟩
  | (.err e, rest) => ⟨w2, .err e, rest⟩
  | (.panicked m, rest) => ⟨w2, .panicked m, rest⟩

/-- One read on the raw buffered input: a line of text successfully read
(its content, trailing newline included when present), or a failing read. -/
inductive RawRead where
  | chunk (s : String)
  | readErr
  deriving DecidableEq, Repr

/-- `Qapi::decode_line` from `qapi/src/lib.rs` at the text level,
parameterized by the serde parser for the requested type: clear the scratch
buffer, `read_line` into it (appending), then parse the buffer when at
least one byte was read; zero bytes read is clean EOF, returned as
`Ok(None)`.  Returns the outcome, the buffer contents afterwards, and the
rest of the input. -/
def decodeLineRaw {D : Type} (parse : String → Option D) (buf : String) :
    List RawRead → IoResult (Option D) × String × List RawRead
  | [] =>
    let cleared := ""
    (.ok none, cleared, [])
  | .readErr :: rest =>
    let cleared := ""
    (.err .streamFail, cleared, rest)
  | .chunk s :: rest =>
    let cleared := ""
    let filled := cleared ++ s
    match parse filled with
    | some d => (.ok (some d), filled, rest)
    | none => (.err .decodeFail, filled, rest)

theorem qmpReadResponse_events_before {C E : Type} (es : List E)
    (tail : List (WireLine QapiCapabilities C E)) (q : List E) :
    qmpReadResponse (es.map WireLine.event ++ tail) q = qmpReadResponse tail (q ++ es) := by
  induction es generalizing q with
  | nil => simp
  | cons e es ih =>
    simp only [List.map_cons, List.cons_append, qmpReadResponse, List.append_eq,
      List.append_nil, ih]
    simp

theorem qmpReadResponse_events_eof {C E : Type} (es : List E) (q : List E) :
    qmpReadResponse (C := C) (es.map WireLine.event) q
      = ⟨.err (.unexpectedEof "expected command response"), [], q ++ es⟩ := by
  have h := qmpReadResponse_events_before (C := C) (E := E) es [] q
  rw [List.append_nil] at h
  rw [h]
  rfl

/-- C1: with a stream delivering events `es` then a response `r`, `execute`
returns `r`'s result, consumes exactly through the response, appends
exactly `es` to the event queue in arrival order, a following `events()`
call drains the queue (yielding exactly `es` when the queue started empty),
a second `events()` call yields the empty sequence, and with no events the
queue is unchanged. -/
theorem qmp_execute_returns_response_and_queues_events {C E : Type}
    (c : CommandModel) (w : List WriteOp) (es : List E) (r : Response C)
    (rest : List (WireLine QapiCapabilities C E)) (q : List E) :
    (qmpExecute c w (es.map WireLine.event ++ WireLine.response r :: rest) q).res
        = .ok r.result ∧
    (qmpExecute c w (es.map WireLine.event ++ WireLine.response r :: rest) q).rest = rest ∧
    (qmpExecute c w (es.map WireLine.event ++ WireLine.response r :: rest) q).queue
        = q ++ es ∧
    (qmpEvents (qmpExecute c w (es.map WireLine.event ++ WireLine.response r :: rest) q).queue).1
        = q ++ es ∧
    (qmpEvents (qmpEvents (qmpExecute c w (es.map WireLine.event ++ WireLine.response r :: rest) q).queue).2).1
        = [] ∧
    (qmpEvents (qmpExecute c w (es.map WireLine.event ++ WireLine.response r :: rest) []).queue).1
        = es ∧
    (qmpExecute c w (WireLine.response r :: rest) q).queue = q := by
  simp [qmpExecute, qmpEvents, qmpReadResponse_events_before, qmpReadResponse]

/-- C4: a line decoding as a Greeting while `read_response` awaits a
command response (after any number of queued events) yields an invalid-data
error ("unexpected greeting"); the greeting is neither queued as an event
nor returned as a response, and the queue keeps exactly the events that
arrived before it. -/
theorem qmp_read_response_rejects_mid_session_greeting {C E : Type}
    (es : List E) (g : QapiCapabilities)
    (rest : List (WireLine QapiCapabilities C E)) (q : List E) :
    qmpReadResponse (es.map WireLine.event ++ WireLine.greeting g :: rest) q
      = ⟨.err (.invalidData "unexpected greeting"), rest, q ++ es⟩ := by
  simp [qmpReadResponse_events_before, qmpReadResponse]

/-- C5: when the stream closes (EOF) while a command response is awaited —
after any number of events for QMP, immediately for QGA — `execute` fails
with the unexpected-EOF error "expected command response" and returns no
decoded value. -/
theorem execute_eof_while_awaiting_response {G C E : Type}
    (c : CommandModel) (w : List WriteOp) (es : List E) (q : List E) :
    (qmpExecute (C := C) c w (es.map WireLine.event) q).res
        = .err (.unexpectedEof "expected command response") ∧
    (qgaExecute (G := G) (C := C) (E := E) c w []).res
        = .err (.unexpectedEof "expected command response") := by
  constructor
  · simp [qmpExecute, qmpReadResponse_events_eof]
  · simp [qgaExecute, qgaReadResponse]

/-- C10: on every error path of `Qmp::read_response` — EOF, a garbage line,
a transport failure, or a mid-session greeting — the events consumed before
the failing read are already appended to the event queue in arrival order;
the error path neither clears nor reorders the queue. -/
theorem qmp_read_response_error_paths_preserve_queue {C E : Type}
    (es : List E) (q : List E) (g : QapiCapabilities)
    (rest : List (WireLine QapiCapabilities C E)) :
    (qmpReadResponse (C := C) (es.map WireLine.event) q).queue = q ++ es ∧
    (qmpReadResponse (C := C) (es.map WireLine.event) q).res
        = .err (.unexpectedEof "expected command response") ∧
    (qmpReadResponse (es.map WireLine.event ++ WireLine.garbage :: rest) q).queue = q ++ es ∧
    (qmpReadResponse (es.map WireLine.event ++ WireLine.garbage :: rest) q).res
        = .err .decodeFail ∧
    (qmpReadResponse (es.map WireLine.event ++ WireLine.ioErrorLine :: rest) q).queue
        = q ++ es ∧
    (qmpReadResponse (es.map WireLine.event ++ WireLine.ioErrorLine :: rest) q).res
        = .err .streamFail ∧
    (qmpReadResponse (es.map WireLine.event ++ WireLine.greeting g :: rest) q).queue
        = q ++ es := by
  simp [qmpReadResponse_events_before, qmpReadResponse_events_eof, qmpReadResponse]

/-- C2: against a stream delivering a valid greeting line and then a
success acknowledgement to `qmp_capabilities`, `Qmp::handshake` succeeds
and returns the greeting's capabilities value unchanged, with the event
queue untouched. -/
theorem qmp_handshake_returns_greeting_capabilities {E : Type}
    (g : QapiCapabilities) (v : Empty)
    (rest : List (WireLine QapiCapabilities Empty E)) (q : List E)
    (w : List WriteOp) :
    (qmpHandshake w (WireLine.greeting g :: WireLine.response (Response.ok v) :: rest) q).res
        = .ok g.QMP ∧
    (qmpHandshake w (WireLine.greeting g :: WireLine.response (Response.ok v) :: rest) q).rest
        = rest ∧
    (qmpHandshake w (WireLine.greeting g :: WireLine.response (Response.ok v) :: rest) q).queue
        = q := by
  simp [qmpHandshake, qmpReadCapabilities, qmpExecute, qmpReadResponse, Response.result]

/-- C3 (counterexample): on clean EOF before the greeting (an empty
stream), `Qmp::handshake` panics via `expect("unexpected eof")` instead of
returning an error result to the caller, refuting the claim that every
handshake failure is returned as an error result. -/
theorem qmp_handshake_eof_panics_not_error :
    (qmpHandshake (E := Nat) [] [] []).res = .panicked "unexpected eof" ∧
    (qmpHandshake (E := Nat) [] [] []).res.isErr = false ∧
    (qmpHandshake (E := Nat) [] [] []).res.isOk = false :=
  ⟨rfl, rfl, rfl⟩

/-- C3 (amended): every QMP handshake failure yields a non-success — an
I/O error at either step (on the first read or while the
`qmp_capabilities` acknowledgement is awaited), a first or acknowledgement
line decoding as an unexpected message type (response, event, or garbage
as the first line; a greeting or garbage as the acknowledgement line), EOF
while the acknowledgement is awaited, or the command returning a remote
Error all make `handshake` return an error result — except clean EOF
before the greeting (zero bytes read), on which `handshake` panics rather
than returning an error result. -/
theorem qmp_handshake_failure_paths {E : Type} (g g2 : QapiCapabilities)
    (r : Response Empty) (e : RemoteError) (ev : E) (es : List E)
    (rest : List (WireLine QapiCapabilities Empty E)) (q : List E)
    (w : List WriteOp) :
    (qmpHandshake w [] q).res = .panicked "unexpected eof" ∧
    (qmpHandshake w [] q).res.isErr = false ∧
    (qmpHandshake w [] q).res.isOk = false ∧
    (qmpHandshake w (WireLine.ioErrorLine :: rest) q).res = .err .streamFail ∧
    (qmpHandshake w (WireLine.garbage :: rest) q).res = .err .decodeFail ∧
    (qmpHandshake w (WireLine.response r :: rest) q).res = .err .decodeFail ∧
    (qmpHandshake w (WireLine.event ev :: rest) q).res = .err .decodeFail ∧
    (qmpHandshake w (WireLine.greeting g :: es.map WireLine.event) q).res
        = .err (.unexpectedEof "expected command response") ∧
    (qmpHandshake w (WireLine.greeting g :: (es.map WireLine.event ++ WireLine.ioErrorLine :: rest)) q).res
        = .err .streamFail ∧
    (qmpHandshake w (WireLine.greeting g :: (es.map WireLine.event ++ WireLine.greeting g2 :: rest)) q).res
        = .err (.invalidData "unexpected greeting") ∧
    (qmpHandshake w (WireLine.greeting g :: (es.map WireLine.event ++ WireLine.garbage :: rest)) q).res
        = .err .decodeFail ∧
    (qmpHandshake w (WireLine.greeting g :: (es.map WireLine.event ++ WireLine.response (Response.err e) :: rest)) q).res
        = .err (.remote e) := by
  refine ⟨rfl, rfl, rfl, rfl, rfl, rfl, rfl, ?_, ?_, ?_, ?_, ?_⟩ <;>
    simp [qmpHandshake, qmpReadCapabilities, qmpExecute, qmpReadResponse_events_before,
      qmpReadResponse_events_eof, qmpReadResponse, Response.result, IoResult.isErr,
      IoResult.isOk]

/-- C6: `Qga::handshake` succeeds exactly when the peer's success response
echoes the nonce sent with `guest-sync`; a different echoed value fails
with the invalid-data error "guest-sync handshake failed" even though the
peer reported success, and a remote Error in the response surfaces as a
failure. -/
theorem qga_handshake_nonce_echo {G E : Type} (nonce r : Int)
    (e : RemoteError) (rest : List (WireLine G Int E)) (w : List WriteOp) :
    ((qgaHandshake (G := G) (E := E) nonce w (WireLine.response (Response.ok r) :: rest)).res
        = .ok () ↔ r = nonce) ∧
    (r = nonce →
      (qgaHandshake (G := G) (E := E) nonce w (WireLine.response (Response.ok r) :: rest)).res
        = .ok ()) ∧
    (r ≠ nonce →
      (qgaHandshake (G := G) (E := E) nonce w (WireLine.response (Response.ok r) :: rest)).res
        = .err (.invalidData "guest-sync handshake failed")) ∧
    (qgaHandshake (G := G) (E := E) nonce w (WireLine.response (Response.err e) :: rest)).res
        = .err (.remote e) := by
  by_cases h : r = nonce <;>
    simp [qgaHandshake, qgaReadResponse, Response.result, h]

theorem qga_handshake_nonce_echo_witness :
    ((qgaHandshake (G := Nat) (E := Nat) 1 [] [WireLine.response (Response.ok 2)]).res
        = .err (.invalidData "guest-sync handshake failed")) ∧
    ((qgaHandshake (G := Nat) (E := Nat) 1 [] [WireLine.response (Response.ok 1)]).res
        = .ok ()) :=
  ⟨(qga_handshake_nonce_echo (G := Nat) (E := Nat) 1 2 ⟨"", ""⟩ [] []).2.2.1 (by decide),
   (qga_handshake_nonce_echo (G := Nat) (E := Nat) 1 1 ⟨"", ""⟩ [] []).2.1 rfl⟩

/-- C7: `decode_line` returns "no value" (clean EOF, not an error) when
zero bytes are read; a line that fails to parse as the requested type
yields a decode error; and because the scratch buffer is cleared before
reading, the previous buffer content never influences the result. -/
theorem decode_line_contract {D : Type} (parse : String → Option D)
    (buf buf2 : String) (s : String) (rest : List RawRead)
    (hfail : parse s = none) :
    decodeLineRaw parse buf [] = (.ok none, "", []) ∧
    decodeLineRaw parse buf (RawRead.chunk s :: rest) = (.err .decodeFail, s, rest) ∧
    (∀ raw : List RawRead, decodeLineRaw parse buf raw = decodeLineRaw parse buf2 raw) := by
  refine ⟨rfl, ?_, ?_⟩
  · simp [decodeLineRaw, hfail]
  · intro raw
    cases raw with
    | nil => rfl
    | cons hd tl => cases hd <;> rfl

theorem decode_line_contract_witness :
    (decodeLineRaw (fun _ : String => (none : Option Nat)) "stale" [RawRead.chunk "x"]
        = (.err .decodeFail, "x", [])) ∧
    (decodeLineRaw (fun _ : String => (none : Option Nat)) "stale" [] = (.ok none, "", [])) ∧
    decodeLineRaw (fun _ : String => (none : Option Nat)) "stale" [RawRead.chunk "x"]
        = decodeLineRaw (fun _ : String => (none : Option Nat)) "other" [RawRead.chunk "x"] :=
  ⟨(decode_line_contract (fun _ => none) "stale" "other" "x" [] rfl).2.1,
   (decode_line_contract (fun _ => none) "stale" "other" "x" [] rfl).1,
   (decode_line_contract (fun _ => none) "stale" "other" "x" [] rfl).2.2 [RawRead.chunk "x"]⟩

/-- C8: `write_command` appends to the write trace exactly the serialized
envelope `{"execute": <name>, "arguments": <args>}` (arguments omitted when
empty), then exactly one newline byte, then exactly one flush, which is the
last operation before returning. -/
theorem write_command_trace (c : CommandModel) (w : List WriteOp) :
    writeCommand c w
        = w ++ [WriteOp.data (serializeCommand c), WriteOp.data "\n", WriteOp.flush] ∧
    writtenData (writeCommand c w) = writtenData w ++ serializeCommand c ++ "\n" ∧
    flushCount (writeCommand c w) = flushCount w + 1 ∧
    (writeCommand c w).getLast? = some WriteOp.flush := by
  refine ⟨by simp [writeCommand], ?_, ?_, ?_⟩
  · simp [writeCommand, writtenData, List.foldl_append]
  · simp [writeCommand, flushCount, List.countP_append, List.countP_cons]
  · simp [writeCommand]

/-- C9: `supports_oob` is true exactly when the advertised capability list
contains the out-of-band flag (false on the empty list), and
`capabilities` returns exactly the recognized flags in list order, dropping
unrecognized entries without failing. -/
theorem capabilities_recognition (v : VersionInfo)
    (caps l1 l2 : List QmpCapability) (a : AnyVal) :
    (QapiCapabilities.supports_oob ⟨⟨v, caps⟩⟩ = true ↔
        QmpCapability.outOfBand ∈ caps) ∧
    QapiCapabilities.supports_oob ⟨⟨v, []⟩⟩ = false ∧
    QapiCapabilities.capabilities ⟨⟨v, []⟩⟩ = [] ∧
    QapiCapabilities.capabilities ⟨⟨v, l1 ++ QmpCapability.unknown a :: l2⟩⟩
        = QapiCapabilities.capabilities ⟨⟨v, l1 ++ l2⟩⟩ ∧
    QapiCapabilities.capabilities ⟨⟨v, l1 ++ QmpCapability.outOfBand :: l2⟩⟩
        = QapiCapabilities.capabilities ⟨⟨v, l1⟩⟩
            ++ QMPCapability.oob :: QapiCapabilities.capabilities ⟨⟨v, l2⟩⟩ := by
  refine ⟨?_, rfl, rfl, ?_, ?_⟩
  · simp only [QapiCapabilities.supports_oob, List.any_eq_true]
    constructor
    · rintro ⟨x, hx, hp⟩
      cases x with
      | outOfBand => exact hx
      | unknown b => simp at hp
    · intro h
      exact ⟨_, h, rfl⟩
  · simp [QapiCapabilities.capabilities, List.filterMap_append, List.filterMap_cons]
  · simp [QapiCapabilities.capabilities, List.filterMap_append, List.filterMap_cons]

theorem capabilities_recognition_witness :
    QapiCapabilities.supports_oob ⟨⟨⟨0, 0, 0, ""⟩, [QmpCapability.outOfBand]⟩⟩ = true ∧
    QapiCapabilities.capabilities
        ⟨⟨⟨0, 0, 0, ""⟩, [QmpCapability.unknown ⟨"x"⟩, QmpCapability.outOfBand]⟩⟩
      = [QMPCapability.oob] :=
  ⟨(capabilities_recognition ⟨0, 0, 0, ""⟩ [QmpCapability.outOfBand]
      [QmpCapability.unknown ⟨"x"⟩] [] ⟨"x"⟩).1.mpr (by simp),
   (capabilities_recognition ⟨0, 0, 0, ""⟩ [QmpCapability.outOfBand]
      [QmpCapability.unknown ⟨"x"⟩] [] ⟨"x"⟩).2.2.2.2⟩

end QapiRs
